import Mathlib

/-!
Verification of the issue reconciliation and notification-state engine of
`work-driver` (src/notifier.rs, src/state.rs, src/server.rs).

Timestamps (`chrono::DateTime<Utc>`) are embedded as `Int` seconds;
`chrono::Duration::minutes n` becomes `n * 60`, and
`now.signed_duration_since ts` becomes `now - ts`.
Rust `HashMap<String, DateTime<Utc>>` is embedded as an association list
with the usual replace-or-append insert; only `get`, `insert` and `retain`
are used by the source, and all are modelled.
File I/O (`load_state` / `save_state`) is modelled by passing the store
value explicitly; the on-disk JSON document is modelled by `FileContent`.
-/

namespace WorkDriver

/-- A `HashMap<String, DateTime<Utc>>` value, as an association list. -/
abbrev AssocMap := List (String × Int)

/-- `HashMap::get`: the value bound to `k`, if any. -/
def lookup (m : AssocMap) (k : String) : Option Int :=
  match m with
  | [] => none
  | (k', v') :: rest => if k' = k then some v' else lookup rest k

/-- `HashMap::insert`: replace the binding of `k` in place, or append it. -/
def insert (m : AssocMap) (k : String) (v : Int) : AssocMap :=
  match m with
  | [] => [(k, v)]
  | (k', v') :: rest => if k' = k then (k, v) :: rest else (k', v') :: insert rest k v

/-- The `State` struct of src/state.rs: `seen` (acknowledgement times),
`issue_timestamps` (last-notification times), `last_check` (last poll). -/
structure State where
  seen : AssocMap
  issue_timestamps : AssocMap
  last_check : Option Int
deriving DecidableEq, Repr

/-- `State::default()`: all maps empty, no last check. -/
def defaultState : State := ⟨[], [], none⟩

/-- `chrono::Duration::minutes(30)`, the acknowledgement window (seconds). -/
def seen_threshold : Int := 30 * 60

/-- `chrono::Duration::minutes(19)`, the notification throttle window (seconds). -/
def notify_threshold : Int := 19 * 60

/-- The `is_seen` test shared by `update_html` and `send_notification`:
`state.seen.get(issue).is_some_and(|ts| now.signed_duration_since(*ts) < seen_threshold)`. -/
def isSeen (st : State) (now : Int) (issue : String) : Bool :=
  match lookup st.seen issue with
  | some ts => decide (now - ts < seen_threshold)
  | none => false

/-- The classification loop of `update_html` (src/notifier.rs:269-280):
walks `issues` in order, pushing each onto `seen_issues` or `unseen_issues`.
Returns `(unseen_issues, seen_issues)`. -/
def classify (st : State) (now : Int) : List String → List String × List String
  | [] => ([], [])
  | issue :: rest =>
    let p := classify st now rest
    if isSeen st now issue then (p.1, issue :: p.2) else (issue :: p.1, p.2)

/-- The store-relevant core of `update_html` (src/notifier.rs:258-300):
classify the polled issues against the loaded state, retain only entries
whose key is a current issue, set `last_check` to `now`.  The HTML write
and the load/save I/O wrappers are outside the embedding; the function
returns `((unseen_issues, seen_issues), saved_state)`. -/
def update_html (issues : List String) (st : State) (now : Int) :
    (List String × List String) × State :=
  let view := classify st now issues
  let st' : State :=
    { seen := st.seen.filter (fun p => issues.contains p.1)
      issue_timestamps := st.issue_timestamps.filter (fun p => issues.contains p.1)
      last_check := some now }
  (view, st')

theorem lookup_insert (m : AssocMap) (k k' : String) (v : Int) :
    lookup (insert m k v) k' = if k = k' then some v else lookup m k' := by
  induction m with
  | nil => simp [insert, lookup]
  | cons hd tl ih =>
    obtain ⟨a, b⟩ := hd
    by_cases hak : a = k
    · subst hak
      by_cases hk' : a = k' <;> simp [insert, lookup, hk']
    · by_cases hk' : a = k'
      · subst hk'
        simp [insert, lookup, hak, ih]
        rw [if_neg (fun h => hak h.symm)]
      · simp [insert, lookup, hak, hk', ih]

theorem lookup_filter (m : AssocMap) (f : String → Bool) (k : String) :
    lookup (m.filter (fun p => f p.1)) k = if f k then lookup m k else none := by
  induction m with
  | nil => simp [lookup]
  | cons hd tl ih =>
    obtain ⟨a, b⟩ := hd
    by_cases hak : a = k
    · subst hak
      cases hf : f a <;> simp [List.filter, hf, lookup, ih]
    · cases hf : f a <;> simp [List.filter, hf, lookup, hak, ih]

theorem classify_eq (st : State) (now : Int) (issues : List String) :
    classify st now issues =
      (issues.filter (fun i => !isSeen st now i), issues.filter (fun i => isSeen st now i)) := by
  induction issues with
  | nil => rfl
  | cons issue rest ih =>
    cases h : isSeen st now issue <;> simp [classify, ih, List.filter, h]

/-- C1: `update_html`'s classification partitions the polled issue list into
`unseen_issues` and `seen_issues`: the two sequences are disjoint, their
union (as sets) is the input issue set, and each preserves the input order
(each is a sublist of the input). -/
theorem update_html_partitions_issues (issues : List String) (st : State) (now : Int) :
    (∀ x, ¬(x ∈ (update_html issues st now).1.1 ∧ x ∈ (update_html issues st now).1.2)) ∧
    (∀ x, x ∈ issues ↔
      (x ∈ (update_html issues st now).1.1 ∨ x ∈ (update_html issues st now).1.2)) ∧
    List.Sublist (update_html issues st now).1.1 issues ∧
    List.Sublist (update_html issues st now).1.2 issues := by
  have hview : (update_html issues st now).1 =
      (issues.filter (fun i => !isSeen st now i), issues.filter (fun i => isSeen st now i)) := by
    simp [update_html, classify_eq]
  rw [hview]
  refine ⟨?_, ?_, List.filter_sublist _, List.filter_sublist _⟩
  · rintro x ⟨h1, h2⟩
    rw [List.mem_filter] at h1 h2
    rw [h2.2] at h1
    exact absurd h1.2 (by simp)
  · intro x
    constructor
    · intro hx
      cases h : isSeen st now x
      · exact Or.inl (List.mem_filter.mpr ⟨hx, by simp [h]⟩)
      · exact Or.inr (List.mem_filter.mpr ⟨hx, by simp [h]⟩)
    · rintro (hx | hx) <;> exact (List.mem_filter.mp hx).1

theorem isSeen_iff (st : State) (now : Int) (issue : String) :
    isSeen st now issue = true ↔
      ∃ ts, lookup st.seen issue = some ts ∧ now - ts < seen_threshold := by
  unfold isSeen
  cases h : lookup st.seen issue <;> simp [h]

/-- C3: an identity in the current issue list is classified `seen` (acknowledged)
iff `state.seen` binds it to a timestamp `ts` with `now - ts < seen_threshold`
(30 minutes), and classified `unseen` otherwise. -/
theorem update_html_ack_window (issues : List String) (st : State) (now : Int)
    (issue : String) (hmem : issue ∈ issues) :
    (issue ∈ (update_html issues st now).1.2 ↔
      ∃ ts, lookup st.seen issue = some ts ∧ now - ts < seen_threshold) ∧
    (issue ∈ (update_html issues st now).1.1 ↔
      ¬∃ ts, lookup st.seen issue = some ts ∧ now - ts < seen_threshold) := by
  have hseen : (update_html issues st now).1.2 = issues.filter (fun i => isSeen st now i) := by
    simp [update_html, classify_eq]
  have huns : (update_html issues st now).1.1 = issues.filter (fun i => !isSeen st now i) := by
    simp [update_html, classify_eq]
  rw [hseen, huns]
  constructor
  · rw [List.mem_filter, ← isSeen_iff st now issue]
    simp [hmem]
  · rw [List.mem_filter, ← isSeen_iff st now issue]
    simp [hmem]

/-- Witness for `update_html_ack_window`: an issue acknowledged at time 0 is
still classified acknowledged 10 minutes later and is classified unseen again
31 minutes later. -/
theorem update_html_ack_window_witness :
    ("x" ∈ (update_html ["x"] ⟨[("x", 0)], [], none⟩ 600).1.2) ∧
    ("x" ∈ (update_html ["x"] ⟨[("x", 0)], [], none⟩ 1860).1.1) := by
  constructor
  · exact (update_html_ack_window ["x"] ⟨[("x", 0)], [], none⟩ 600 "x" (by decide)).1.mpr
      ⟨0, rfl, by norm_num [seen_threshold]⟩
  · refine (update_html_ack_window ["x"] ⟨[("x", 0)], [], none⟩ 1860 "x" (by decide)).2.mpr ?_
    rintro ⟨ts, hts, hlt⟩
    simp [lookup] at hts
    subst hts
    norm_num [seen_threshold] at hlt

theorem contains_iff (l : List String) (a : String) : l.contains a = true ↔ a ∈ l :=
  List.elem_iff

/-- C4: the store saved by `update_html` is the input store with every entry
whose key is not a current issue removed from both `seen` and
`issue_timestamps`, with remaining bindings unchanged, and with `last_check`
set to `now`. -/
theorem update_html_prunes_stale_entries (issues : List String) (st : State) (now : Int) :
    (∀ k, lookup ((update_html issues st now).2).seen k =
      if k ∈ issues then lookup st.seen k else none) ∧
    (∀ k, lookup ((update_html issues st now).2).issue_timestamps k =
      if k ∈ issues then lookup st.issue_timestamps k else none) ∧
    ((update_html issues st now).2).last_check = some now := by
  refine ⟨?_, ?_, rfl⟩
  · intro k
    show lookup (st.seen.filter (fun p => issues.contains p.1)) k = _
    rw [lookup_filter st.seen (fun x => issues.contains x) k]
    by_cases h : k ∈ issues <;> simp [h, contains_iff]
  · intro k
    show lookup (st.issue_timestamps.filter (fun p => issues.contains p.1)) k = _
    rw [lookup_filter st.issue_timestamps (fun x => issues.contains x) k]
    by_cases h : k ∈ issues <;> simp [h, contains_iff]

/-- The `mark_seen` handler core (src/server.rs:23-28): load the state, set
`state.seen[issue] = now`, save.  Load/save I/O is modelled by explicit
state passing. -/
def mark_seen (st : State) (issue : String) (now : Int) : State :=
  { st with seen := insert st.seen issue now }

theorem insert_insert (m : AssocMap) (k : String) (v1 v2 : Int) :
    insert (insert m k v1) k v2 = insert m k v2 := by
  induction m with
  | nil => simp [insert]
  | cons hd tl ih =>
    obtain ⟨a, b⟩ := hd
    by_cases hak : a = k
    · subst hak
      simp [insert]
    · simp [insert, hak, ih]

/-- C9: acknowledging an identity unconditionally binds it to `now` in `seen`
(no reference to any poll's issue set), leaves the other fields and other
keys untouched, and acknowledging twice equals acknowledging once at the
later time (only the timestamp is overwritten). -/
theorem mark_seen_unconditional_idempotent (st : State) (issue : String) (t1 t2 : Int) :
    mark_seen (mark_seen st issue t1) issue t2 = mark_seen st issue t2 ∧
    (∀ k, lookup (mark_seen st issue t1).seen k =
      if issue = k then some t1 else lookup st.seen k) ∧
    (mark_seen st issue t1).issue_timestamps = st.issue_timestamps ∧
    (mark_seen st issue t1).last_check = st.last_check := by
  refine ⟨?_, ?_, rfl, rfl⟩
  · simp [mark_seen, insert_insert]
  · intro k
    simp [mark_seen, lookup_insert]

/-- One iteration body of the throttle check in `send_notification`
(src/notifier.rs:322-333): whether this issue is due, and the state with its
`issue_timestamps` entry advanced to `now` when it is. -/
def notifStep (now : Int) (issue : String) (st : State) : Bool × State :=
  match lookup st.issue_timestamps issue with
  | some last_notified =>
    if now - last_notified > notify_threshold then
      (true, { st with issue_timestamps := insert st.issue_timestamps issue now })
    else
      (false, st)
  | none => (true, { st with issue_timestamps := insert st.issue_timestamps issue now })

/-- The filter-and-throttle loop of `send_notification`
(src/notifier.rs:309-334): walks `detailed_issues` in order, skipping seen
issues, collecting unseen ones, and advancing `issue_timestamps` for due
ones.  Returns `(needs_notification, unseen_issues, state)`. -/
def notifLoop (now : Int) : List String → State → Bool × List String × State
  | [], st => (false, [], st)
  | issue :: rest, st =>
    if isSeen st now issue then
      notifLoop now rest st
    else
      let d := notifStep now issue st
      let r := notifLoop now rest d.2
      (d.1 || r.1, issue :: r.2.1, r.2.2)

/-- `str::starts_with` over character lists. -/
def isPrefixOfChars : List Char → List Char → Bool
  | [], _ => true
  | _ :: _, [] => false
  | c :: cs, d :: ds => c == d && isPrefixOfChars cs ds

/-- `str::contains` over character lists: some suffix has `pat` as a prefix. -/
def containsChars (pat : List Char) : List Char → Bool
  | [] => isPrefixOfChars pat []
  | d :: ds => isPrefixOfChars pat (d :: ds) || containsChars pat ds

/-- `str::contains` on strings. -/
def strContains (s pat : String) : Bool := containsChars pat.data s.data

/-- `str::starts_with` on strings. -/
def strStartsWith (s pat : String) : Bool := isPrefixOfChars pat.data s.data

/-- The summary-grouping loop of `send_notification` (src/notifier.rs:342-357):
counts `(failing, needs_review, draft_ready, flags)` over the unseen issues
with the source's first-match-wins chain of marker tests. -/
def tally : List String → Nat × Nat × Nat × Nat
  | [] => (0, 0, 0, 0)
  | issue :: rest =>
    let t := tally rest
    if strContains issue "has failing checks" then (t.1 + 1, t.2.1, t.2.2.1, t.2.2.2)
    else if strContains issue "awaiting your review" then (t.1, t.2.1 + 1, t.2.2.1, t.2.2.2)
    else if strContains issue "is draft with all checks passing" then
      (t.1, t.2.1, t.2.2.1 + 1, t.2.2.2)
    else if strStartsWith issue "Flag " then (t.1, t.2.1, t.2.2.1, t.2.2.2 + 1)
    else t

/-- The pluralization picks of the summary: `if n == 1 { "" } else { "s" }`. -/
def plural (n : Nat) : String := if n = 1 then "" else "s"

/-- The summary sentence built in `send_notification` (src/notifier.rs:358-371). -/
def buildSummary (unseen : List String) : String :=
  let t := tally unseen
  let parts : List String :=
    (if t.1 > 0 then [toString t.1 ++ " failing check" ++ plural t.1] else []) ++
    (if t.2.1 > 0 then [toString t.2.1 ++ " review" ++ plural t.2.1 ++ " waiting"] else []) ++
    (if t.2.2.1 > 0 then [toString t.2.2.1 ++ " draft" ++ plural t.2.2.1 ++ " ready"] else []) ++
    (if t.2.2.2 > 0 then [toString t.2.2.2 ++ " flag" ++ plural t.2.2.2 ++ " stale"] else [])
  String.intercalate ", " parts

/-- The store-relevant core of `send_notification` (src/notifier.rs:302-388):
returns `(alert_fired, summary, saved_state)`.  When `!needs_notification ||
unseen_issues.is_empty()` the source returns before saving or notifying, so
the returned state is the input state and the summary is empty. -/
def send_notification (issues : List String) (st : State) (now : Int) :
    Bool × String × State :=
  let r := notifLoop now issues st
  if !r.1 || r.2.1.isEmpty then (false, "", st)
  else (true, buildSummary r.2.1, r.2.2)

/-- The throttle test of `send_notification`: `last_notified` absent, or
`now - last_notified > notify_threshold` (19 minutes). -/
def throttleOpen (st : State) (now : Int) (issue : String) : Bool :=
  match lookup st.issue_timestamps issue with
  | some last_notified => decide (now - last_notified > notify_threshold)
  | none => true

/-- "Due": unseen and past the throttle window — exactly when
`send_notification` advances `issue_timestamps[issue]`. -/
def isDue (st : State) (now : Int) (issue : String) : Bool :=
  !isSeen st now issue && throttleOpen st now issue

theorem isSeen_congr (st st0 : State) (now : Int) (issue : String)
    (h : st.seen = st0.seen) : isSeen st now issue = isSeen st0 now issue := by
  unfold isSeen
  rw [h]

theorem notifStep_fst (now : Int) (issue : String) (st : State) :
    (notifStep now issue st).1 = throttleOpen st now issue := by
  unfold notifStep throttleOpen
  cases h : lookup st.issue_timestamps issue
  · rfl
  · rename_i a
    by_cases hc : now - a > notify_threshold <;> simp [hc]

theorem notifStep_snd (now : Int) (issue : String) (st : State) :
    (notifStep now issue st).2 =
      if throttleOpen st now issue = true then
        { st with issue_timestamps := insert st.issue_timestamps issue now }
      else st := by
  unfold notifStep throttleOpen
  cases h : lookup st.issue_timestamps issue
  · simp
  · rename_i a
    by_cases hc : now - a > notify_threshold <;> simp [hc]

theorem isDue_lookup_ne (st : State) (now : Int) (issue : String)
    (h : isDue st now issue = true) :
    lookup st.issue_timestamps issue ≠ some now := by
  intro hl
  unfold isDue throttleOpen at h
  rw [hl] at h
  simp [notify_threshold] at h

theorem dueMid_iff (st0 st : State) (now : Int) (issue : String)
    (hseen : st.seen = st0.seen)
    (hinv : ∀ k, lookup st.issue_timestamps k = lookup st0.issue_timestamps k ∨
        (lookup st.issue_timestamps k = some now ∧ isDue st0 now k = true)) :
    ((!isSeen st now issue && throttleOpen st now issue) = true ↔
      (isDue st0 now issue = true ∧ lookup st.issue_timestamps issue ≠ some now)) := by
  rcases hinv issue with h1 | ⟨h1, hdue⟩
  · have hto : throttleOpen st now issue = throttleOpen st0 now issue := by
      unfold throttleOpen
      rw [h1]
    have hi : isSeen st now issue = isSeen st0 now issue := isSeen_congr _ _ _ _ hseen
    constructor
    · intro h
      have hd : isDue st0 now issue = true := by
        unfold isDue
        rw [← hto, ← hi]
        exact h
      refine ⟨hd, ?_⟩
      rw [h1]
      exact isDue_lookup_ne st0 now issue hd
    · rintro ⟨hd, _⟩
      unfold isDue at hd
      rw [← hto, ← hi] at hd
      exact hd
  · constructor
    · intro h
      exfalso
      have h2 := ((Bool.and_eq_true _ _).mp h).2
      unfold throttleOpen at h2
      rw [h1] at h2
      simp [notify_threshold] at h2
    · rintro ⟨_, hne⟩
      exact absurd h1 hne

theorem notifLoop_spec (st0 : State) (now : Int) (issues : List String) :
    ∀ st : State, st.seen = st0.seen → st.last_check = st0.last_check →
    (∀ k, lookup st.issue_timestamps k = lookup st0.issue_timestamps k ∨
        (lookup st.issue_timestamps k = some now ∧ isDue st0 now k = true)) →
    (notifLoop now issues st).2.2.seen = st0.seen ∧
    (notifLoop now issues st).2.2.last_check = st0.last_check ∧
    (∀ k, lookup (notifLoop now issues st).2.2.issue_timestamps k =
        if k ∈ issues ∧ isDue st0 now k = true then some now
        else lookup st.issue_timestamps k) ∧
    ((notifLoop now issues st).1 = true ↔
        ∃ i, i ∈ issues ∧ isDue st0 now i = true ∧
          lookup st.issue_timestamps i ≠ some now) ∧
    (notifLoop now issues st).2.1 = issues.filter (fun i => !isSeen st0 now i) := by
  induction issues with
  | nil =>
    intro st hseen hlast hinv
    refine ⟨hseen, hlast, ?_, ?_, rfl⟩
    · intro k
      simp [notifLoop]
    · simp [notifLoop]
  | cons issue rest ih =>
    intro st hseen hlast hinv
    have hiseen : isSeen st now issue = isSeen st0 now issue := isSeen_congr _ _ _ _ hseen
    by_cases hs : isSeen st now issue = true
    · have hs0 : isSeen st0 now issue = true := by rw [← hiseen]; exact hs
      have hnotdue : isDue st0 now issue = false := by
        unfold isDue
        rw [hs0]
        rfl
      have hloop : notifLoop now (issue :: rest) st = notifLoop now rest st := by
        simp [notifLoop, hs]
      obtain ⟨a1, a2, a3, a4, a5⟩ := ih st hseen hlast hinv
      rw [hloop]
      refine ⟨a1, a2, ?_, ?_, ?_⟩
      · intro k
        rw [a3 k]
        by_cases hk : k = issue
        · subst hk
          simp [hnotdue]
        · simp [List.mem_cons, hk]
      · rw [a4]
        constructor
        · rintro ⟨i, hi, hd, hne⟩
          exact ⟨i, List.mem_cons_of_mem _ hi, hd, hne⟩
        · rintro ⟨i, hi, hd, hne⟩
          rcases List.mem_cons.mp hi with hi1 | hi2
          · subst hi1
            rw [hnotdue] at hd
            cases hd
          · exact ⟨i, hi2, hd, hne⟩
      · rw [a5]
        simp [List.filter, hs0]
    · have hs' : isSeen st now issue = false := by simpa using hs
      have hs0 : isSeen st0 now issue = false := by rw [← hiseen]; exact hs'
      have hloop : notifLoop now (issue :: rest) st =
          ((notifStep now issue st).1 || (notifLoop now rest (notifStep now issue st).2).1,
            issue :: (notifLoop now rest (notifStep now issue st).2).2.1,
            (notifLoop now rest (notifStep now issue st).2).2.2) := by
        simp [notifLoop, hs']
      by_cases hto : throttleOpen st now issue = true
      · have hdue0 := (dueMid_iff st0 st now issue hseen hinv).mp (by simp [hs', hto])
        have hstep1 : (notifStep now issue st).1 = true := by
          rw [notifStep_fst, hto]
        have hstep2 : (notifStep now issue st).2 =
            { st with issue_timestamps := insert st.issue_timestamps issue now } := by
          rw [notifStep_snd, if_pos hto]
        have hseen' : ({ st with issue_timestamps := insert st.issue_timestamps issue now } : State).seen = st0.seen := hseen
        have hlast' : ({ st with issue_timestamps := insert st.issue_timestamps issue now } : State).last_check = st0.last_check := hlast
        have hinv' : ∀ k,
            lookup ({ st with issue_timestamps := insert st.issue_timestamps issue now } : State).issue_timestamps k = lookup st0.issue_timestamps k ∨
            (lookup ({ st with issue_timestamps := insert st.issue_timestamps issue now } : State).issue_timestamps k = some now ∧ isDue st0 now k = true) := by
          intro k
          change lookup (insert st.issue_timestamps issue now) k = _ ∨
            (lookup (insert st.issue_timestamps issue now) k = _ ∧ _)
          rw [lookup_insert]
          by_cases hk : issue = k
          · rw [if_pos hk]
            right
            exact ⟨rfl, hk ▸ hdue0.1⟩
          · rw [if_neg hk]
            exact hinv k
        obtain ⟨a1, a2, a3, a4, a5⟩ :=
          ih { st with issue_timestamps := insert st.issue_timestamps issue now } hseen' hlast' hinv'
        rw [hloop, hstep2, hstep1]
        refine ⟨a1, a2, ?_, ?_, ?_⟩
        · intro k
          rw [a3 k]
          by_cases hk : k = issue
          · subst hk
            rw [if_pos (show k ∈ k :: rest ∧ isDue st0 now k = true from
                ⟨List.mem_cons_self _ _, hdue0.1⟩)]
            by_cases hm : k ∈ rest
            · rw [if_pos ⟨hm, hdue0.1⟩]
            · rw [if_neg (fun hc => hm hc.1)]
              show lookup (insert st.issue_timestamps k now) k = some now
              rw [lookup_insert, if_pos rfl]
          · have hmem : (k ∈ issue :: rest) ↔ (k ∈ rest) := by
              constructor
              · intro h
                rcases List.mem_cons.mp h with h1 | h2
                · exact absurd h1 hk
                · exact h2
              · exact List.mem_cons_of_mem _
            by_cases hcond : k ∈ rest ∧ isDue st0 now k = true
            · rw [if_pos hcond,
                if_pos (show k ∈ issue :: rest ∧ isDue st0 now k = true from
                  ⟨hmem.mpr hcond.1, hcond.2⟩)]
            · rw [if_neg hcond, if_neg (fun hc => hcond ⟨hmem.mp hc.1, hc.2⟩)]
              show lookup (insert st.issue_timestamps issue now) k = _
              rw [lookup_insert, if_neg (fun h => hk h.symm)]
        · simp only [Bool.true_or, true_iff]
          exact ⟨issue, List.mem_cons_self _ _, hdue0.1, hdue0.2⟩
        · rw [a5]
          simp [List.filter, hs0]
      · have hto' : throttleOpen st now issue = false := by simpa using hto
        have hstep1 : (notifStep now issue st).1 = false := by
          rw [notifStep_fst, hto']
        have hstep2 : (notifStep now issue st).2 = st := by
          rw [notifStep_snd, if_neg (by simp [hto'])]
        have hnmid : ¬(isDue st0 now issue = true ∧
            lookup st.issue_timestamps issue ≠ some now) := by
          intro hc
          have hmid := (dueMid_iff st0 st now issue hseen hinv).mpr hc
          rw [Bool.and_eq_true, hto'] at hmid
          exact Bool.false_ne_true hmid.2
        obtain ⟨a1, a2, a3, a4, a5⟩ := ih st hseen hlast hinv
        rw [hloop, hstep2, hstep1]
        refine ⟨a1, a2, ?_, ?_, ?_⟩
        · intro k
          rw [a3 k]
          by_cases hk : k = issue
          · subst hk
            by_cases hd : isDue st0 now k = true
            · have hlk : lookup st.issue_timestamps k = some now := by
                by_contra hne
                exact hnmid ⟨hd, hne⟩
              by_cases hm : k ∈ rest
              · rw [if_pos ⟨hm, hd⟩,
                  if_pos (show k ∈ k :: rest ∧ isDue st0 now k = true from
                    ⟨List.mem_cons_self _ _, hd⟩)]
              · rw [if_neg (fun hc => hm hc.1),
                  if_pos (show k ∈ k :: rest ∧ isDue st0 now k = true from
                    ⟨List.mem_cons_self _ _, hd⟩), hlk]
            · rw [if_neg (fun hc => hd hc.2), if_neg (fun hc : _ ∧ _ => hd hc.2)]
          · have hmem : (k ∈ issue :: rest) ↔ (k ∈ rest) := by
              constructor
              · intro h
                rcases List.mem_cons.mp h with h1 | h2
                · exact absurd h1 hk
                · exact h2
              · exact List.mem_cons_of_mem _
            by_cases hcond : k ∈ rest ∧ isDue st0 now k = true
            · rw [if_pos hcond,
                if_pos (show k ∈ issue :: rest ∧ isDue st0 now k = true from
                  ⟨hmem.mpr hcond.1, hcond.2⟩)]
            · rw [if_neg hcond, if_neg (fun hc => hcond ⟨hmem.mp hc.1, hc.2⟩)]
        · rw [Bool.false_or, a4]
          constructor
          · rintro ⟨i, hi, hd, hne⟩
            exact ⟨i, List.mem_cons_of_mem _ hi, hd, hne⟩
          · rintro ⟨i, hi, hd, hne⟩
            rcases List.mem_cons.mp hi with hi1 | hi2
            · subst hi1
              exact absurd ⟨hd, hne⟩ hnmid
            · exact ⟨i, hi2, hd, hne⟩
        · rw [a5]
          simp [List.filter, hs0]

theorem notifLoop_needs_iff (issues : List String) (st : State) (now : Int) :
    ((notifLoop now issues st).1 = true ↔ ∃ i, i ∈ issues ∧ isDue st now i = true) := by
  obtain ⟨-, -, -, a4, -⟩ := notifLoop_spec st now issues st rfl rfl (fun k => Or.inl rfl)
  rw [a4]
  constructor
  · rintro ⟨i, hi, hd, -⟩
    exact ⟨i, hi, hd⟩
  · rintro ⟨i, hi, hd⟩
    exact ⟨i, hi, hd, isDue_lookup_ne st now i hd⟩

theorem send_notification_eq_pos (issues : List String) (st : State) (now : Int)
    (hn : (notifLoop now issues st).1 = true) :
    send_notification issues st now =
      (true, buildSummary (notifLoop now issues st).2.1, (notifLoop now issues st).2.2) := by
  obtain ⟨i, hi, hd⟩ := (notifLoop_needs_iff issues st now).mp hn
  obtain ⟨-, -, -, -, a5⟩ := notifLoop_spec st now issues st rfl rfl (fun k => Or.inl rfl)
  have hsi : isSeen st now i = false := by
    have h := (Bool.and_eq_true _ _).mp hd
    simpa using h.1
  have hunseen : i ∈ (notifLoop now issues st).2.1 := by
    rw [a5]
    exact List.mem_filter.mpr ⟨hi, by simp [hsi]⟩
  have hne : (notifLoop now issues st).2.1.isEmpty = false := by
    have h := List.ne_nil_of_mem hunseen
    simpa [List.isEmpty_iff] using h
  simp [send_notification, hn, hne]

theorem send_notification_eq_neg (issues : List String) (st : State) (now : Int)
    (hn : (notifLoop now issues st).1 = false) :
    send_notification issues st now = (false, "", st) := by
  simp [send_notification, hn]

/-- C2: an unseen identity is due exactly when its `issue_timestamps` entry
is absent or `now` minus it exceeds `notify_threshold` (19 minutes); the
saved store advances `issue_timestamps` to `now` for exactly the due
identities of the polled list; an alert fires iff at least one identity is
due; concretely, a never-notified unseen issue alerts and is stamped, does
not alert 5 minutes later, and alerts again after 20 minutes. -/
theorem send_notification_due_gate (issues : List String) (st : State) (now : Int) :
    (∀ k, isDue st now k = true ↔
        (isSeen st now k = false ∧
          (lookup st.issue_timestamps k = none ∨
            ∃ ln, lookup st.issue_timestamps k = some ln ∧ now - ln > notify_threshold))) ∧
    ((send_notification issues st now).1 = true ↔
        ∃ i, i ∈ issues ∧ isDue st now i = true) ∧
    (∀ k, lookup (send_notification issues st now).2.2.issue_timestamps k =
        if k ∈ issues ∧ isDue st now k = true then some now
        else lookup st.issue_timestamps k) ∧
    (send_notification ["i"] defaultState 0).1 = true ∧
    lookup (send_notification ["i"] defaultState 0).2.2.issue_timestamps "i" = some 0 ∧
    (send_notification ["i"] (send_notification ["i"] defaultState 0).2.2 300).1 = false ∧
    (send_notification ["i"] (send_notification ["i"] defaultState 0).2.2 1200).1 = true := by
  refine ⟨?_, ?_, ?_, rfl, rfl, rfl, rfl⟩
  · intro k
    unfold isDue throttleOpen
    cases h : lookup st.issue_timestamps k
    · simp
    · rename_i a
      simp [h]
  · by_cases hn : (notifLoop now issues st).1 = true
    · rw [send_notification_eq_pos issues st now hn]
      constructor
      · intro _
        exact (notifLoop_needs_iff issues st now).mp hn
      · intro _
        rfl
    · have hn' : (notifLoop now issues st).1 = false := by simpa using hn
      rw [send_notification_eq_neg issues st now hn']
      constructor
      · intro h
        exact absurd h (by simp)
      · rintro ⟨i, hi, hd⟩
        exact absurd (hn' ▸ (notifLoop_needs_iff issues st now).mpr ⟨i, hi, hd⟩)
          Bool.false_ne_true
  · intro k
    obtain ⟨-, -, a3, -, -⟩ := notifLoop_spec st now issues st rfl rfl (fun k => Or.inl rfl)
    by_cases hn : (notifLoop now issues st).1 = true
    · rw [send_notification_eq_pos issues st now hn]
      exact a3 k
    · have hn' : (notifLoop now issues st).1 = false := by simpa using hn
      rw [send_notification_eq_neg issues st now hn']
      have hnd : ¬(k ∈ issues ∧ isDue st now k = true) := by
        intro hc
        exact absurd (hn' ▸ (notifLoop_needs_iff issues st now).mpr ⟨k, hc.1, hc.2⟩)
          Bool.false_ne_true
      rw [if_neg hnd]

/-- C10: the store saved by `send_notification` never differs from the
loaded one in `seen` or `last_check` — only `issue_timestamps` changes —
and when no polled identity is due the function returns before saving,
leaving the store exactly as loaded. -/
theorem send_notification_frame (issues : List String) (st : State) (now : Int) :
    (send_notification issues st now).2.2.seen = st.seen ∧
    (send_notification issues st now).2.2.last_check = st.last_check ∧
    ((¬∃ i, i ∈ issues ∧ isDue st now i = true) →
      (send_notification issues st now).2.2 = st) := by
  obtain ⟨a1, a2, -, -, -⟩ := notifLoop_spec st now issues st rfl rfl (fun k => Or.inl rfl)
  by_cases hn : (notifLoop now issues st).1 = true
  · rw [send_notification_eq_pos issues st now hn]
    refine ⟨a1, a2, ?_⟩
    intro hnone
    exact absurd ((notifLoop_needs_iff issues st now).mp hn) hnone
  · have hn' : (notifLoop now issues st).1 = false := by simpa using hn
    rw [send_notification_eq_neg issues st now hn']
    exact ⟨rfl, rfl, fun _ => rfl⟩

/-- Witness for `send_notification_frame`: one acknowledged (hence not due)
issue, so the gate saves nothing and returns the store untouched. -/
theorem send_notification_frame_witness :
    (send_notification ["x"] ⟨[("x", 0)], [], none⟩ 0).2.2 = ⟨[("x", 0)], [], none⟩ :=
  (send_notification_frame ["x"] ⟨[("x", 0)], [], none⟩ 0).2.2 (by decide)

/-- C6 counterexample: with `PR #1` due (never notified) and `PR #2` unseen
but NOT due (notified 5 minutes ago, inside the 19-minute window), the
summary still counts `PR #2`: it reads "1 failing check, 1 review waiting",
whereas a summary over only the due identities would read "1 failing check".
The summary is therefore not restricted to due identities. -/
theorem summary_counts_nondue_counterexample :
    isDue ⟨[], [("PR #2 'y' awaiting your review", 900)], none⟩ 1200
        "PR #2 'y' awaiting your review" = false ∧
    (send_notification
        ["PR #1 'x' has failing checks", "PR #2 'y' awaiting your review"]
        ⟨[], [("PR #2 'y' awaiting your review", 900)], none⟩ 1200).2.1 =
      "1 failing check, 1 review waiting" ∧
    buildSummary
        (["PR #1 'x' has failing checks", "PR #2 'y' awaiting your review"].filter
          (fun i => isDue ⟨[], [("PR #2 'y' awaiting your review", 900)], none⟩ 1200 i)) =
      "1 failing check" ∧
    ("1 failing check, 1 review waiting" : String) ≠ "1 failing check" := by
  refine ⟨rfl, rfl, rfl, by decide⟩

/-- C6 (amended): when the alert fires, the summary is built over ALL unseen
identities of the poll — due or not — grouped by the fixed markers; with a
fresh store, one failing-checks and one awaiting-review issue give exactly
"1 failing check, 1 review waiting"; an identity with an unrecognized marker
is omitted from the summary (empty here) but still fires the alert. -/
theorem summary_counts_all_unseen (issues : List String) (st : State) (now : Int) :
    (send_notification issues st now).2.1 =
      (if (send_notification issues st now).1 = true then
        buildSummary (issues.filter (fun i => !isSeen st now i))
      else "") ∧
    (send_notification ["PR #1 'x' has failing checks", "PR #2 'y' awaiting your review"]
        defaultState 0).1 = true ∧
    (send_notification ["PR #1 'x' has failing checks", "PR #2 'y' awaiting your review"]
        defaultState 0).2.1 = "1 failing check, 1 review waiting" ∧
    (send_notification ["strange issue"] defaultState 0).1 = true ∧
    (send_notification ["strange issue"] defaultState 0).2.1 = "" := by
  refine ⟨?_, rfl, rfl, rfl, rfl⟩
  obtain ⟨-, -, -, -, a5⟩ := notifLoop_spec st now issues st rfl rfl (fun k => Or.inl rfl)
  by_cases hn : (notifLoop now issues st).1 = true
  · rw [send_notification_eq_pos issues st now hn, a5]
    simp
  · have hn' : (notifLoop now issues st).1 = false := by simpa using hn
    rw [send_notification_eq_neg issues st now hn']
    simp

/-- The on-disk JSON document of src/state.rs.  `serde_json` is modelled
abstractly: a well-formed document carries each of the three `State` fields
optionally (`#[serde(default)]` supplies the default when a field is
absent) together with any unknown fields (which serde ignores), and
`malformed` stands for bytes that fail to parse. -/
inductive FileContent where
  | doc (seen : Option AssocMap) (issue_timestamps : Option AssocMap)
      (last_check : Option (Option Int)) (unknownFields : List String) : FileContent
  | malformed (raw : String) : FileContent
deriving DecidableEq

/-- `serde_json::to_string_pretty` applied to a `State` (src/state.rs:37):
a document with every field present and no unknown fields. -/
def serialize (st : State) : FileContent :=
  FileContent.doc (some st.seen) (some st.issue_timestamps) (some st.last_check) []

/-- `serde_json::from_str::<State>`: fails on malformed bytes, otherwise
defaults each missing field and ignores unknown fields. -/
def parseContent : FileContent → Option State
  | FileContent.doc s i l _ => some ⟨s.getD [], i.getD [], l.getD none⟩
  | FileContent.malformed _ => none

/-- `load_state` (src/state.rs:25-32): an absent file yields
`State::default()`; a present file is parsed and a parse failure is an
error. -/
def load_state (file : Option FileContent) : Except String State :=
  match file with
  | none => Except.ok defaultState
  | some c =>
    match parseContent c with
    | some st => Except.ok st
    | none => Except.error "Failed to parse state file"

/-- The two file slots `save_state` touches: the canonical `state.json` and
the temporary `state.json.tmp` in the same directory. -/
structure Fs where
  canonical : Option FileContent
  tmp : Option FileContent
deriving DecidableEq

/-- `fs::write(&tmp_path, content)` (src/state.rs:38). -/
def writeTmp (fs : Fs) (c : FileContent) : Fs :=
  { fs with tmp := some c }

/-- `fs::rename(&tmp_path, &path)` (src/state.rs:39): atomically moves the
temporary file over the canonical path. -/
def renameTmp (fs : Fs) : Fs :=
  { canonical := fs.tmp, tmp := none }

/-- `save_state` (src/state.rs:34-41): serialize the whole store, write it
to the temporary path, then rename the temporary file over the canonical
path. -/
def save_state (fs : Fs) (st : State) : Fs :=
  renameTmp (writeTmp fs (serialize st))

/-- A crash between the temporary write and the rename: only the temporary
write has happened. -/
def save_state_crashed (fs : Fs) (st : State) : Fs :=
  writeTmp fs (serialize st)

/-- C5: `save_state` writes the full snapshot to a temporary path and then
renames it over the canonical path; a crash between the write and the
rename leaves the previously committed canonical file intact and still
parseable to the previous store, while a completed save installs the new
snapshot. -/
theorem save_state_crash_preserves_canonical (fs : Fs) (stPrev stNew : State)
    (h : fs.canonical = some (serialize stPrev)) :
    (save_state_crashed fs stNew).canonical = some (serialize stPrev) ∧
    load_state (save_state_crashed fs stNew).canonical = Except.ok stPrev ∧
    (save_state fs stNew).canonical = some (serialize stNew) := by
  refine ⟨h, ?_, rfl⟩
  show load_state fs.canonical = _
  rw [h]
  rfl

/-- Witness for `save_state_crash_preserves_canonical`: a store previously
committed by `save_state` survives a crashed save of a different store. -/
theorem save_state_crash_preserves_canonical_witness :
    (save_state_crashed ⟨some (serialize defaultState), none⟩ ⟨[("x", 5)], [], some 7⟩).canonical
        = some (serialize defaultState) ∧
    load_state (save_state_crashed ⟨some (serialize defaultState), none⟩
        ⟨[("x", 5)], [], some 7⟩).canonical = Except.ok defaultState ∧
    (save_state ⟨some (serialize defaultState), none⟩ ⟨[("x", 5)], [], some 7⟩).canonical
        = some (serialize ⟨[("x", 5)], [], some 7⟩) :=
  save_state_crash_preserves_canonical ⟨some (serialize defaultState), none⟩
    defaultState ⟨[("x", 5)], [], some 7⟩ rfl

/-- C8: `load_state` yields the default store when no file exists (absence
is not an error), errors when the file exists but fails to parse, and a
parsed document's missing fields default to empty (unknown fields are
ignored) instead of failing. -/
theorem load_state_defaults_and_corruption :
    load_state none = Except.ok defaultState ∧
    (∀ raw, load_state (some (FileContent.malformed raw)) =
      Except.error "Failed to parse state file") ∧
    (∀ u, load_state (some (FileContent.doc none none none u)) = Except.ok defaultState) ∧
    (∀ s u, load_state (some (FileContent.doc (some s) none none u)) =
      Except.ok ⟨s, [], none⟩) :=
  ⟨rfl, fun _ => rfl, fun _ => rfl, fun _ _ => rfl⟩

/-- The unsynchronized race between the HTTP `mark_seen` handler
(src/server.rs:23-28) and the poll cycle's `update_html`
(src/notifier.rs:258-300): no lock exists anywhere in the program, so both
contexts may `load_state` the same store before either saves; here the
acknowledgement save lands first and the poll's save lands second, each
save replacing the whole file with a state derived from its own loaded
snapshot.  Returns `(store saved by mark_seen, final store on disk)`. -/
def raceAckThenPoll (issues : List String) (issue : String) (tAck tPoll : Int)
    (file0 : State) : State × State :=
  let ackSaved := mark_seen file0 issue tAck
  let pollSaved := (update_html issues file0 tPoll).2
  (ackSaved, pollSaved)

/-- C7 counterexample: the program has no in-process mutual-exclusion
boundary, and in the interleaving where both contexts load before either
saves, the acknowledgement `mark_seen` durably wrote (`seen["x"] = 10`) is
absent from the final store: the poll's save silently clobbers it. -/
theorem race_lost_update_counterexample :
    lookup ((raceAckThenPoll ["x"] "x" 10 20 defaultState).1).seen "x" = some 10 ∧
    lookup ((raceAckThenPoll ["x"] "x" 10 20 defaultState).2).seen "x" = none :=
  ⟨rfl, rfl⟩

/-- C7 (amended): there is no mutual-exclusion boundary: `mark_seen` and
`update_html` each perform load-modify-save on the store file
independently, so in the interleaving where both load before either saves,
the final persisted `seen` entry of an identity the poll retains equals its
pre-race value — the concurrent acknowledgement's update is lost. -/
theorem race_clobbers_acknowledgement (issues : List String) (issue : String)
    (tAck tPoll : Int) (file0 : State) (h : issue ∈ issues) :
    lookup ((raceAckThenPoll issues issue tAck tPoll file0).2).seen issue =
      lookup file0.seen issue := by
  show lookup (file0.seen.filter (fun p => issues.contains p.1)) issue = _
  rw [lookup_filter file0.seen (fun x => issues.contains x) issue,
    if_pos ((contains_iff issues issue).mpr h)]

/-- Witness for `race_clobbers_acknowledgement`: the acknowledgement made at
time 10 is lost; the final store still carries the pre-race timestamp 3. -/
theorem race_clobbers_acknowledgement_witness :
    lookup ((raceAckThenPoll ["x"] "x" 10 20 ⟨[("x", 3)], [], none⟩).2).seen "x" = some 3 :=
  race_clobbers_acknowledgement ["x"] "x" 10 20 ⟨[("x", 3)], [], none⟩ (by decide)

end WorkDriver
